import Mathlib

/-!
Shallow embedding of `src/Lab4/server.py`: a leader/follower replicated
key-value store with per-key integer versions, quorum-acknowledged writes
and a version-guarded apply handler.

Modelling conventions:
* The Python dict `store` becomes a function `String → Option (Entry V)`;
  `store[key] = e` becomes pointwise update `setStore`.
* Python `int` versions become `Int` (JSON integers may be negative).
* The opaque JSON `value : Any` becomes a type parameter `V`.
* The handlers mutate a global store; here each handler takes the store
  and returns the new store together with its response.
* The concurrent fan-out of `replicate_to_follower` tasks is abstracted
  by a `List Bool` of per-push outcomes in completion order: an element
  is `true` exactly when that follower returned HTTP 200 within the
  timeout, and `false` on a network error, a non-success status, or a
  timeout (the `except` branches of the source).  The `as_completed`
  counting loop of `set_value` is `countConfirmations`.
-/

namespace Lab4

/-- A stored entry, `store[key] = ("value": v, "version": n)` in the source. -/
structure Entry (V : Type) where
  value : V
  version : Int
deriving DecidableEq, Repr

/-- The in-memory store of one node: a map from string keys to entries. -/
abbrev Store (V : Type) := String → Option (Entry V)

/-- The store at process start: empty. -/
def emptyStore {V : Type} : Store V := fun _ => none

/-- Pointwise update, `store[key] = entry`. -/
def setStore {V : Type} (s : Store V) (key : String) (e : Entry V) : Store V :=
  fun k => if k = key then some e else s k

/-- Response body of `POST /replicate`. -/
structure ReplicateResp where
  ok : Bool
  applied : Bool
  reason : Option String
deriving DecidableEq, Repr

/-- Response body of `POST /set` on success. -/
structure SetResp where
  ok : Bool
  confirmations : Nat
  required : Int
  version : Int
deriving DecidableEq, Repr

/-- A FastAPI `HTTPException(status_code, detail)`. -/
structure HTTPError where
  status : Nat
  detail : String
deriving DecidableEq, Repr

/-- The `/replicate` handler (`replicate` in the source).  It reads only the
store: the node role `ROLE` is in scope in the source but never consulted on
this path.  The update is applied exactly when the key is absent
(`current is None`) or the incoming version is strictly greater than the
stored one; otherwise the store is untouched and the push is reported stale. -/
def replicate {V : Type} (ROLE : String) (s : Store V) (key : String) (value : V)
    (version : Int) : Store V × ReplicateResp :=
  match s key with
  | none => (setStore s key ⟨value, version⟩, ⟨true, true, none⟩)
  | some current =>
    if version > current.version then
      (setStore s key ⟨value, version⟩, ⟨true, true, none⟩)
    else
      (s, ⟨true, false, some "stale_version"⟩)

/-- The confirmation-counting loop of `set_value`: push outcomes are consumed
in completion order; a `true` outcome increments the count; after every
completed push the count is compared with the quorum and the loop breaks as
soon as `confirmations >= WRITE_QUORUM`. -/
def countConfirmations (WRITE_QUORUM : Int) : List Bool → Nat → Nat
  | [], acc => acc
  | r :: rs, acc =>
    let acc₁ := if r then acc + 1 else acc
    if WRITE_QUORUM ≤ (acc₁ : Int) then acc₁
    else countConfirmations WRITE_QUORUM rs acc₁

/-- The `POST /set` handler (`set_value` in the source).  A non-leader node
rejects with HTTP 403 and touches nothing.  A leader reads the current
version (0 if the key is absent), bumps it, commits locally, then counts
follower confirmations against the quorum; `results` are the per-push
outcomes in completion order (empty when no followers are configured). -/
def set_value {V : Type} (ROLE : String) (WRITE_QUORUM : Int) (s : Store V)
    (key : String) (value : V) (results : List Bool) :
    Store V × Except HTTPError SetResp :=
  if ROLE ≠ "leader" then
    (s, .error ⟨403, "Only leader accepts writes"⟩)
  else
    let current_version := ((s key).map Entry.version).getD 0
    let new_version := current_version + 1
    let s₁ := setStore s key ⟨value, new_version⟩
    let confirmations := countConfirmations WRITE_QUORUM results 0
    let success := decide (WRITE_QUORUM ≤ (confirmations : Int))
    (s₁, .ok ⟨success, confirmations, WRITE_QUORUM, new_version⟩)

/-- One mutating operation on a node, for reasoning about operation
sequences: a `/set` arrival or a `/replicate` arrival. -/
inductive Op (V : Type) where
  | setOp (ROLE : String) (WRITE_QUORUM : Int) (key : String) (value : V)
      (results : List Bool)
  | replOp (ROLE : String) (key : String) (value : V) (version : Int)

/-- Store effect of one operation. -/
def stepStore {V : Type} (s : Store V) : Op V → Store V
  | .setOp role q key value results => (set_value role q s key value results).1
  | .replOp role key value version => (replicate role s key value version).1

/-- Store after a sequence of operations. -/
def runOps {V : Type} (s : Store V) : List (Op V) → Store V
  | [] => s
  | op :: ops => runOps (stepStore s op) ops

/-- Folding a list of `(value, version)` pushes for one key through the
apply handler. -/
def applyUpdates {V : Type} (ROLE : String) (s : Store V) (key : String) :
    List (V × Int) → Store V
  | [] => s
  | u :: us => applyUpdates ROLE (replicate ROLE s key u.1 u.2).1 key us

/-! Basic lemmas about the store and the confirmation loop. -/

theorem setStore_same {V : Type} (s : Store V) (key : String) (e : Entry V) :
    setStore s key e key = some e := by
  simp [setStore]

theorem setStore_diff {V : Type} (s : Store V) (key : String) (e : Entry V)
    (k : String) (h : k ≠ key) : setStore s key e k = s k := by
  simp [setStore, h]

theorem countConfirmations_le_count (q : Int) (rs : List Bool) (acc : Nat) :
    countConfirmations q rs acc ≤ acc + rs.count true := by
  induction rs generalizing acc with
  | nil => simp [countConfirmations]
  | cons r rs ih =>
    cases r with
    | true =>
      have h := ih (acc + 1)
      have hc : List.count true (true :: rs) = List.count true rs + 1 :=
        List.count_cons_self true rs
      show (if q ≤ ((acc + 1 : Nat) : Int) then acc + 1
            else countConfirmations q rs (acc + 1)) ≤ acc + List.count true (true :: rs)
      rw [hc]
      split <;> omega
    | false =>
      have h := ih acc
      have hc : List.count true (false :: rs) = List.count true rs := by
        simp [List.count_cons]
      show (if q ≤ ((acc : Nat) : Int) then acc
            else countConfirmations q rs acc) ≤ acc + List.count true (false :: rs)
      rw [hc]
      split <;> omega

theorem stepStore_mono {V : Type} (op : Op V) (s : Store V) (key : String)
    (e : Entry V) (h : s key = some e) :
    ∃ e2, stepStore s op key = some e2 ∧ (e2 = e ∨ e.version < e2.version) := by
  cases op with
  | setOp role q k2 v results =>
    by_cases hrole : role = "leader"
    · subst hrole
      by_cases hk : key = k2
      · subst hk
        refine ⟨⟨v, e.version + 1⟩, ?_, Or.inr (by show e.version < e.version + 1; omega)⟩
        simp [stepStore, set_value, h, setStore_same]
      · refine ⟨e, ?_, Or.inl rfl⟩
        simp [stepStore, set_value, setStore_diff _ _ _ _ hk, h]
    · refine ⟨e, ?_, Or.inl rfl⟩
      simp [stepStore, set_value, hrole, h]
  | replOp role k2 v ver =>
    cases hc : s k2 with
    | none =>
      by_cases hk : key = k2
      · subst hk; rw [h] at hc; exact absurd hc (by simp)
      · refine ⟨e, ?_, Or.inl rfl⟩
        simp [stepStore, replicate, hc, setStore_diff _ _ _ _ hk, h]
    | some cur =>
      by_cases hv : cur.version < ver
      · by_cases hk : key = k2
        · subst hk
          rw [h] at hc
          cases Option.some.inj hc
          refine ⟨⟨v, ver⟩, ?_, Or.inr hv⟩
          simp [stepStore, replicate, h, hv, setStore_same]
        · refine ⟨e, ?_, Or.inl rfl⟩
          simp [stepStore, replicate, hc, hv, setStore_diff _ _ _ _ hk, h]
      · refine ⟨e, ?_, Or.inl rfl⟩
        simp [stepStore, replicate, hc, hv, h]

theorem runOps_mono {V : Type} (ops : List (Op V)) (s : Store V) (key : String)
    (e : Entry V) (h : s key = some e) :
    ∃ e2, runOps s ops key = some e2 ∧ e.version ≤ e2.version := by
  induction ops generalizing s e with
  | nil => exact ⟨e, h, le_refl _⟩
  | cons op ops ih =>
    obtain ⟨e1, h1, h2⟩ := stepStore_mono op s key e h
    obtain ⟨e2, h3, h4⟩ := ih (stepStore s op) e1 h1
    refine ⟨e2, h3, ?_⟩
    cases h2 with
    | inl heq => rw [heq] at h4; exact h4
    | inr hlt => exact le_trans (le_of_lt hlt) h4

theorem applyUpdates_stale {V : Type} (role : String) (s : Store V) (key : String)
    (e : Entry V) (h : s key = some e) (us : List (V × Int))
    (hall : ∀ u ∈ us, u.2 ≤ e.version) :
    applyUpdates role s key us = s := by
  induction us with
  | nil => rfl
  | cons u us ih =>
    have hu : u.2 ≤ e.version := hall u (List.mem_cons_self u us)
    have hrep : replicate role s key u.1 u.2 = (s, ⟨true, false, some "stale_version"⟩) := by
      simp [replicate, h, not_lt.mpr hu]
    show applyUpdates role (replicate role s key u.1 u.2).1 key us = s
    rw [hrep]
    exact ih (fun w hw => hall w (List.mem_cons_of_mem u hw))

theorem applyUpdates_max_wins {V : Type} (role : String) (key : String)
    (p : V × Int) (l : List (V × Int)) :
    ∀ s : Store V, p ∈ l → (∀ u ∈ l, u.2 ≤ p.2) → (l.map Prod.snd).Nodup →
      (s key = none ∨ ∃ e, s key = some e ∧ e.version < p.2) →
      applyUpdates role s key l key = some ⟨p.1, p.2⟩ := by
  induction l with
  | nil => intro s hp; exact absurd hp (List.not_mem_nil p)
  | cons u us ih =>
    intro s hp hmax hnd hinv
    have hnd1 : u.2 ∉ us.map Prod.snd := (List.nodup_cons.mp (by simpa using hnd)).1
    have hnd2 : (us.map Prod.snd).Nodup := (List.nodup_cons.mp (by simpa using hnd)).2
    rcases List.mem_cons.mp hp with hpu | hpus
    · subst hpu
      have happ : (replicate role s key p.1 p.2).1 = setStore s key ⟨p.1, p.2⟩ := by
        rcases hinv with hnone | ⟨e, he, hlt⟩
        · simp [replicate, hnone]
        · simp [replicate, he, hlt]
      show applyUpdates role (replicate role s key p.1 p.2).1 key us key = some ⟨p.1, p.2⟩
      rw [happ]
      rw [applyUpdates_stale role _ key ⟨p.1, p.2⟩ (setStore_same s key _) us
        (fun w hw => hmax w (List.mem_cons_of_mem _ hw))]
      exact setStore_same s key _
    · have hu_lt : u.2 < p.2 := by
        have hle := hmax u (List.mem_cons_self u us)
        have hne : u.2 ≠ p.2 := by
          intro hEq
          exact hnd1 (hEq ▸ List.mem_map_of_mem Prod.snd hpus)
        omega
      show applyUpdates role (replicate role s key u.1 u.2).1 key us key = some ⟨p.1, p.2⟩
      refine ih (replicate role s key u.1 u.2).1 hpus
        (fun w hw => hmax w (List.mem_cons_of_mem _ hw)) hnd2 ?_
      rcases hinv with hnone | ⟨e, he, hlt⟩
      · exact Or.inr ⟨⟨u.1, u.2⟩, by simp [replicate, hnone, setStore_same], hu_lt⟩
      · by_cases hgt : e.version < u.2
        · exact Or.inr ⟨⟨u.1, u.2⟩, by simp [replicate, he, hgt, setStore_same], hu_lt⟩
        · exact Or.inr ⟨e, by simp [replicate, he, hgt, he], hlt⟩

/-! Claim theorems. -/

/-- C2 (amended): the apply handler overwrites the entry and reports
applied = true exactly when the key is absent or the incoming version is
strictly greater than the stored version.  An absent key is applied
unconditionally — it is not treated as a stored version 0 — and when an
entry exists, an incoming version less than or equal to the stored one
leaves the store unchanged and reports applied = false with reason
stale_version. -/
theorem c2_apply_handler_rule {V : Type} (role : String) (s : Store V)
    (key : String) (v : V) (ver : Int) :
    (s key = none →
      replicate role s key v ver = (setStore s key ⟨v, ver⟩, ⟨true, true, none⟩))
    ∧ ∀ cur, s key = some cur →
        (cur.version < ver →
          replicate role s key v ver = (setStore s key ⟨v, ver⟩, ⟨true, true, none⟩))
        ∧ (ver ≤ cur.version →
          replicate role s key v ver = (s, ⟨true, false, some "stale_version"⟩)) := by
  refine ⟨fun h => by simp [replicate, h], fun cur h => ?_⟩
  exact ⟨fun hlt => by simp [replicate, h, hlt],
    fun hle => by simp [replicate, h, not_lt.mpr hle]⟩

/-- C2 counterexample: a /replicate push with version 0 to a key with no
stored entry is applied — the entry is written and applied = true is
reported — not the stale no-op the claim predicts. -/
theorem c2_counterexample :
    (replicate "follower" (emptyStore (V := Nat)) "k" 42 0).1 "k" = some ⟨42, 0⟩
    ∧ (replicate "follower" (emptyStore (V := Nat)) "k" 42 0).2.applied = true := by
  constructor <;> rfl

/-- C2 witness: the amended apply rule evaluated at concrete inputs — an
absent key with version 0 is applied, a newer version overwrites, and a
non-greater version is a stale no-op. -/
theorem c2_apply_handler_rule_witness :
    (replicate "follower" (emptyStore (V := Nat)) "k" 5 0
      = (setStore emptyStore "k" ⟨5, 0⟩, ⟨true, true, none⟩))
    ∧ (replicate "follower" (setStore (emptyStore (V := Nat)) "k" ⟨9, 3⟩) "k" 5 4
      = (setStore (setStore emptyStore "k" ⟨9, 3⟩) "k" ⟨5, 4⟩, ⟨true, true, none⟩))
    ∧ (replicate "follower" (setStore (emptyStore (V := Nat)) "k" ⟨9, 3⟩) "k" 5 3
      = (setStore (emptyStore (V := Nat)) "k" ⟨9, 3⟩,
          ⟨true, false, some "stale_version"⟩)) :=
  ⟨(c2_apply_handler_rule "follower" emptyStore "k" 5 0).1 rfl,
   ((c2_apply_handler_rule "follower" _ "k" 5 4).2 ⟨9, 3⟩ (setStore_same _ _ _)).1
     (by decide),
   ((c2_apply_handler_rule "follower" _ "k" 5 3).2 ⟨9, 3⟩ (setStore_same _ _ _)).2
     (by decide)⟩

/-- C5 (amended): the /replicate handler performs no role check — its result
does not depend on the node role — so a node in role leader applies an
externally pushed replication message exactly like a follower: whenever the
key is absent or the stored version is smaller, the leader store is
overwritten and applied = true is reported. -/
theorem c5_leader_applies_replicate {V : Type} (role role2 : String)
    (s : Store V) (key : String) (v : V) (ver : Int) :
    replicate role s key v ver = replicate role2 s key v ver
    ∧ ((s key = none ∨ ∃ cur, s key = some cur ∧ cur.version < ver) →
        (replicate "leader" s key v ver).1 key = some ⟨v, ver⟩
        ∧ (replicate "leader" s key v ver).2.applied = true) := by
  refine ⟨rfl, fun h => ?_⟩
  rcases h with hnone | ⟨cur, hc, hlt⟩
  · exact ⟨by simp [replicate, hnone, setStore_same], by simp [replicate, hnone]⟩
  · exact ⟨by simp [replicate, hc, hlt, setStore_same], by simp [replicate, hc, hlt]⟩

/-- C5 counterexample: a node in role leader does apply an externally pushed
/replicate — starting from the empty store, the push writes the entry, so
the leader store is not left unchanged. -/
theorem c5_counterexample :
    (replicate "leader" (emptyStore (V := Nat)) "k" 3 1).1 "k" = some ⟨3, 1⟩
    ∧ emptyStore (V := Nat) "k" = none := ⟨rfl, rfl⟩

/-- C5 witness: role independence and the leader-applies rule at a concrete
input. -/
theorem c5_leader_applies_replicate_witness :
    replicate "leader" (emptyStore (V := Nat)) "k" 3 1
      = replicate "follower" (emptyStore (V := Nat)) "k" 3 1
    ∧ ((replicate "leader" (emptyStore (V := Nat)) "k" 3 1).1 "k" = some ⟨3, 1⟩
        ∧ (replicate "leader" (emptyStore (V := Nat)) "k" 3 1).2.applied = true) :=
  ⟨(c5_leader_applies_replicate "leader" "follower" (emptyStore (V := Nat))
      "k" 3 1).1,
   (c5_leader_applies_replicate "leader" "follower" (emptyStore (V := Nat))
      "k" 3 1).2 (Or.inl rfl)⟩

/-- C6: the leader write handler reads the current version (0 when the key
is absent), commits the value at version current + 1 — and this local commit
is independent of the replication outcomes — and the response version field
equals current + 1. -/
theorem c6_write_handler {V : Type} (q : Int) (s : Store V) (key : String)
    (v : V) (results : List Bool) :
    (set_value "leader" q s key v results).1 key
      = some ⟨v, ((s key).map Entry.version).getD 0 + 1⟩
    ∧ (∀ results2, (set_value "leader" q s key v results2).1
        = (set_value "leader" q s key v results).1)
    ∧ ∃ resp, (set_value "leader" q s key v results).2 = .ok resp
        ∧ resp.version = ((s key).map Entry.version).getD 0 + 1 := by
  refine ⟨?_, fun results2 => ?_,
    ⟨⟨decide (q ≤ ((countConfirmations q results 0 : Nat) : Int)),
      countConfirmations q results 0, q, ((s key).map Entry.version).getD 0 + 1⟩,
      ?_, rfl⟩⟩
  · simp [set_value, setStore_same]
  · simp [set_value]
  · simp [set_value]

/-- C7: a /set arriving at a node whose role is not leader fails with
HTTP 403 ("Only leader accepts writes") and the store is returned
unchanged. -/
theorem c7_role_violation {V : Type} (role : String) (h : role ≠ "leader")
    (q : Int) (s : Store V) (key : String) (v : V) (results : List Bool) :
    set_value role q s key v results
      = (s, .error ⟨403, "Only leader accepts writes"⟩) := by
  simp [set_value, h]

/-- C7 witness: a follower rejects a concrete write with HTTP 403 and an
unchanged store. -/
theorem c7_role_violation_witness :
    set_value "follower" 1 (emptyStore (V := Nat)) "k" 5 [true]
      = (emptyStore, .error ⟨403, "Only leader accepts writes"⟩) :=
  c7_role_violation "follower" (by decide) 1 emptyStore "k" 5 [true]

/-- C8: applying the same (key, value, version) twice in a row leaves the
store exactly as after the first apply, and the second call reports
applied = false with reason stale_version. -/
theorem c8_apply_idempotent {V : Type} (role : String) (s : Store V)
    (key : String) (v : V) (ver : Int) :
    replicate role (replicate role s key v ver).1 key v ver
      = ((replicate role s key v ver).1, ⟨true, false, some "stale_version"⟩) := by
  cases h : s key with
  | none =>
    have h1 : (replicate role s key v ver).1 = setStore s key ⟨v, ver⟩ := by
      simp [replicate, h]
    rw [h1]
    simp [replicate, setStore_same]
  | some cur =>
    by_cases hv : cur.version < ver
    · have h1 : (replicate role s key v ver).1 = setStore s key ⟨v, ver⟩ := by
        simp [replicate, h, hv]
      rw [h1]
      simp [replicate, setStore_same]
    · have h1 : (replicate role s key v ver).1 = s := by
        simp [replicate, h, hv]
      rw [h1]
      simp [replicate, h, hv]

/-- C10: frame condition — a /set commit and a /replicate apply on one key
leave the entry of every other key unchanged. -/
theorem c10_frame {V : Type} (role : String) (q : Int) (s : Store V)
    (key k2 : String) (h : k2 ≠ key) (v : V) (ver : Int) (results : List Bool) :
    (set_value role q s key v results).1 k2 = s k2
    ∧ (replicate role s key v ver).1 k2 = s k2 := by
  constructor
  · by_cases hrole : role = "leader"
    · subst hrole; simp [set_value, setStore_diff _ _ _ _ h]
    · simp [set_value, hrole]
  · cases hc : s key with
    | none => simp [replicate, hc, setStore_diff _ _ _ _ h]
    | some cur =>
      by_cases hv : cur.version < ver
      · simp [replicate, hc, hv, setStore_diff _ _ _ _ h]
      · simp [replicate, hc, hv]

/-- C10 witness: writing and replicating key "a" leaves key "b" absent. -/
theorem c10_frame_witness :
    (set_value "leader" 1 (emptyStore (V := Nat)) "a" 5 []).1 "b"
      = emptyStore (V := Nat) "b"
    ∧ (replicate "leader" (emptyStore (V := Nat)) "a" 5 1).1 "b"
      = emptyStore (V := Nat) "b" :=
  c10_frame "leader" 1 emptyStore "a" "b" (by decide) 5 1 []

/-- C3 (amended): follower pushes are awaited in completion order and counted
only until the quorum is reached, so the reported confirmations can be fewer
than the number of successful pushes; still the response reports
ok = (confirmations ≥ quorum), confirmations never exceeds the number of
successful pushes, and ok = true implies at least quorum pushes returned a
success status within the timeout. -/
theorem c3_quorum_semantics {V : Type} (q : Int) (s : Store V) (key : String)
    (v : V) (results : List Bool) :
    (set_value "leader" q s key v results).2
      = .ok ⟨decide (q ≤ ((countConfirmations q results 0 : Nat) : Int)),
             countConfirmations q results 0, q,
             ((s key).map Entry.version).getD 0 + 1⟩
    ∧ countConfirmations q results 0 ≤ results.count true
    ∧ (decide (q ≤ ((countConfirmations q results 0 : Nat) : Int)) = true →
        q ≤ ((results.count true : Nat) : Int)) := by
  refine ⟨by simp [set_value], ?_, ?_⟩
  · simpa using countConfirmations_le_count q results 0
  · intro h
    have h1 := of_decide_eq_true h
    have h2 : countConfirmations q results 0 ≤ results.count true := by
      simpa using countConfirmations_le_count q results 0
    omega

/-- C3 counterexample: with quorum 1 and two pushes that both return success,
the aggregation loop breaks after the first success and the response reports
confirmations = 1, though 2 follower pushes returned success — so a
successful push does not always count as a confirmation. -/
theorem c3_counterexample :
    (set_value "leader" 1 (emptyStore (V := Nat)) "k" 0 [true, true]).2
      = .ok ⟨true, 1, 1, 1⟩
    ∧ List.count true [true, true] = 2
    ∧ (1 : Nat) ≠ 2 := ⟨rfl, rfl, by decide⟩

/-- C3 witness: the amended quorum semantics at quorum 1 with push outcomes
[false, true]; the implication is discharged since the write reached
quorum. -/
theorem c3_quorum_semantics_witness :
    (set_value "leader" 1 (emptyStore (V := Nat)) "k" 5 [false, true]).2
      = .ok ⟨decide ((1 : Int) ≤ ((countConfirmations 1 [false, true] 0 : Nat) : Int)),
             countConfirmations 1 [false, true] 0, 1,
             ((emptyStore (V := Nat) "k").map Entry.version).getD 0 + 1⟩
    ∧ countConfirmations 1 [false, true] 0 ≤ List.count true [false, true]
    ∧ (1 : Int) ≤ ((List.count true [false, true] : Nat) : Int) :=
  ⟨(c3_quorum_semantics 1 emptyStore "k" 5 [false, true]).1,
   (c3_quorum_semantics 1 emptyStore "k" 5 [false, true]).2.1,
   (c3_quorum_semantics 1 emptyStore "k" 5 [false, true]).2.2 (by decide)⟩

/-- C4 (amended): with quorum ≤ 0 every leader write succeeds (ok = true),
but when follower pushes exist the loop still awaits the first completed
push, so confirmations is not always 0; with zero followers (no pushes) the
confirmation count is 0 and the write succeeds exactly when quorum ≤ 0. -/
theorem c4_zero_quorum {V : Type} (q : Int) (s : Store V) (key : String)
    (v : V) (results : List Bool) :
    (q ≤ 0 →
      (set_value "leader" q s key v results).2
        = .ok ⟨true, countConfirmations q results 0, q,
               ((s key).map Entry.version).getD 0 + 1⟩)
    ∧ (set_value "leader" q s key v []).2
        = .ok ⟨decide (q ≤ (0 : Int)), 0, q,
               ((s key).map Entry.version).getD 0 + 1⟩
    ∧ (decide (q ≤ (0 : Int)) = true ↔ q ≤ 0) := by
  refine ⟨fun hq => ?_, ?_, by simp⟩
  · have hle : q ≤ ((countConfirmations q results 0 : Nat) : Int) :=
      le_trans hq (by omega)
    simp [set_value, decide_eq_true hle]
  · simp [set_value, countConfirmations]

/-- C4 counterexample: quorum 0 with one successful follower push — the
leader awaits that push and responds with confirmations = 1, not the 0 the
claim predicts. -/
theorem c4_counterexample :
    (set_value "leader" 0 (emptyStore (V := Nat)) "k" 7 [true]).2
      = .ok ⟨true, 1, 0, 1⟩
    ∧ (1 : Nat) ≠ 0 := ⟨rfl, by decide⟩

/-- C4 witness: the amended zero-quorum behavior at quorum 0, once with one
successful push and once with no followers. -/
theorem c4_zero_quorum_witness :
    (set_value "leader" 0 (emptyStore (V := Nat)) "k" 7 [true]).2
      = .ok ⟨true, countConfirmations 0 [true] 0, 0,
             ((emptyStore (V := Nat) "k").map Entry.version).getD 0 + 1⟩
    ∧ (set_value "leader" 0 (emptyStore (V := Nat)) "k" 7 []).2
      = .ok ⟨decide ((0 : Int) ≤ (0 : Int)), 0, 0,
             ((emptyStore (V := Nat) "k").map Entry.version).getD 0 + 1⟩ :=
  ⟨(c4_zero_quorum 0 emptyStore "k" 7 [true]).1 (by decide),
   (c4_zero_quorum 0 emptyStore "k" 7 [true]).2.1⟩

/-- C1: per-key version monotonicity — over any sequence of /set commits and
/replicate applies, a stored entry's version never decreases, and a single
operation either leaves the entry untouched or replaces it with a strictly
greater version. -/
theorem c1_version_monotonic {V : Type} :
    (∀ (ops : List (Op V)) (s : Store V) (key : String) (e e2 : Entry V),
        s key = some e → runOps s ops key = some e2 → e.version ≤ e2.version)
    ∧ (∀ (op : Op V) (s : Store V) (key : String) (e e2 : Entry V),
        s key = some e → stepStore s op key = some e2 →
        e2 = e ∨ e.version < e2.version) := by
  constructor
  · intro ops s key e e2 h h2
    obtain ⟨e3, h3, h4⟩ := runOps_mono ops s key e h
    rw [h2] at h3
    cases Option.some.inj h3
    exact h4
  · intro op s key e e2 h h2
    obtain ⟨e3, h3, h4⟩ := stepStore_mono op s key e h
    rw [h2] at h3
    cases Option.some.inj h3
    exact h4

/-- C1 witness: starting from version 0, a replicate to version 1 followed by
a leader write gives version 2; monotonicity applied at this run and at its
first step. -/
theorem c1_version_monotonic_witness :
    setStore (emptyStore (V := Nat)) "k" ⟨0, 0⟩ "k" = some ⟨0, 0⟩
    ∧ runOps (setStore (emptyStore (V := Nat)) "k" ⟨0, 0⟩)
        [Op.replOp "follower" "k" 5 1, Op.setOp "leader" 0 "k" 7 []] "k"
        = some ⟨7, 2⟩
    ∧ (0 : Int) ≤ (2 : Int)
    ∧ stepStore (setStore (emptyStore (V := Nat)) "k" ⟨0, 0⟩)
        (Op.replOp "follower" "k" 5 1) "k" = some ⟨5, 1⟩
    ∧ ((⟨5, 1⟩ : Entry Nat) = ⟨0, 0⟩ ∨ (0 : Int) < (1 : Int)) :=
  ⟨rfl, rfl,
   c1_version_monotonic.1 [Op.replOp "follower" "k" 5 1, Op.setOp "leader" 0 "k" 7 []]
     (setStore emptyStore "k" ⟨0, 0⟩) "k" ⟨0, 0⟩ ⟨7, 2⟩ rfl rfl,
   rfl,
   c1_version_monotonic.2 (Op.replOp "follower" "k" 5 1)
     (setStore emptyStore "k" ⟨0, 0⟩) "k" ⟨0, 0⟩ ⟨5, 1⟩ rfl rfl⟩

/-- C9: order independence — on a fresh store, delivering version 3 and then
version 2 leaves the entry at version 3 with the version-3 value and the
second delivery is reported stale; in general, for any delivery sequence of
pairwise-distinct versions to one key, the converged entry is the delivery
with the highest version, regardless of order. -/
theorem c9_order_independence {V : Type} (role : String) (key : String)
    (v3 v2 : V) (l : List (V × Int)) (p : V × Int) (hp : p ∈ l)
    (hmax : ∀ u ∈ l, u.2 ≤ p.2) (hnd : (l.map Prod.snd).Nodup) :
    ((replicate role (replicate role (emptyStore (V := V)) key v3 3).1 key v2 2).1 key
        = some ⟨v3, 3⟩
      ∧ (replicate role (replicate role (emptyStore (V := V)) key v3 3).1 key v2 2).2
        = ⟨true, false, some "stale_version"⟩)
    ∧ applyUpdates role emptyStore key l key = some ⟨p.1, p.2⟩ := by
  refine ⟨?_, applyUpdates_max_wins role key p l emptyStore hp hmax hnd (Or.inl rfl)⟩
  have h1 : (replicate role (emptyStore (V := V)) key v3 3).1
      = setStore emptyStore key ⟨v3, 3⟩ := by
    simp [replicate, emptyStore]
  rw [h1]
  constructor
  · simp [replicate, setStore_same]
  · simp [replicate, setStore_same]

/-- C9 witness: the delivery sequence [(a, 3), (b, 2)] on a fresh store —
version 3 first, then the stale version 2 — converges to the version-3
entry, which is also the maximal delivery of that list. -/
theorem c9_order_independence_witness :
    ((replicate "x" (replicate "x" (emptyStore (V := String)) "k" "a" 3).1 "k" "b" 2).1 "k"
        = some ⟨"a", 3⟩
      ∧ (replicate "x" (replicate "x" (emptyStore (V := String)) "k" "a" 3).1 "k" "b" 2).2
        = ⟨true, false, some "stale_version"⟩)
    ∧ applyUpdates "x" emptyStore "k" [("a", 3), ("b", 2)] "k" = some ⟨"a", 3⟩ :=
  c9_order_independence "x" "k" "a" "b" [("a", 3), ("b", 2)] ("a", 3)
    (List.mem_cons_self _ _) (by decide) (by decide)

end Lab4
